import Mathlib

/-!
# Verification of the CRU DMA channel queue engine

Shallow embedding of `src/Cru/CruDmaChannel.cxx` (ReadoutCard repository).

The embedding models the queue/counter state of `CruDmaChannel` and the
operations `pushSuperpage`, `fillSuperpages`, `popSuperpage`,
`deviceStartDma` (queue-reinitialisation and data-source validation part) and
`deviceStopDma` (drain part).  Hardware interaction is modelled as:
* `getSuperpageCount(link.id)` — a function `hw : Nat → Nat` given as a
  parameter (the per-link arrival counter read from the BAR);
* `pushSuperpageDescriptor(id, pages, busAddress)` — an emitted
  `PushCommand` value;
* register writes / resets / sleeps — no-ops on the modelled state.

The capacities `LINK_QUEUE_CAPACITY` and `READY_QUEUE_CAPACITY` and the DMA
page size are compile-time constants of the C++ class whose header is not in
the sources; they are carried as parameters.  C++ `uint32_t` arithmetic is
modelled on `Nat`, with an explicit `% 2^32` exactly where the C++ code can
wrap: the unguarded subtraction `superpageCount - link.superpageCounter` in
`deviceStopDma`, and the loop bound `amountAvailable + 1` of the same
function, which is also computed in `uint32_t` and wraps to zero when
`amountAvailable = 2^32 - 1`.
-/

set_option maxRecDepth 4000

namespace CruDma

/-- `Superpage` (ReadoutCard/Superpage.h): offset, size and completion
metadata. -/
structure Superpage where
  offset : Nat
  size : Nat
  received : Nat := 0
  ready : Bool := false
  deriving Repr, DecidableEq

/-- One entry of `mLinks`: hardware link id, pending FIFO (`link.queue`,
front = head of the list) and the shadow arrival counter
(`link.superpageCounter`). -/
structure Link where
  id : Nat
  queue : List Superpage := []
  superpageCounter : Nat := 0
  deriving Repr, DecidableEq

/-- The queue/counter state of a `CruDmaChannel`: `mLinks`, `mReadyQueue`
(front = head of the list) and `mLinkQueuesTotalAvailable`. -/
structure ChannelState where
  links : List Link
  readyQueue : List Superpage := []
  linkQueuesTotalAvailable : Nat := 0
  deriving Repr, DecidableEq

/-- One `pushSuperpageDescriptor(link.id, dmaPages, busAddress)` call to the
BAR. -/
structure PushCommand where
  linkId : Nat
  pageCount : Nat
  busAddress : Nat
  deriving Repr, DecidableEq

/-- `CruDmaChannel::getNextLinkIndex`, inner loop: scan the links, keeping
the index of the strictly smallest pending-queue size seen so far.  `i` is the
index of the first link of the remaining list, `bestIdx`/`bestSize` the
running minimum. -/
def getNextLinkIndexAux : List Link → Nat → Nat → Nat → Nat
  | [], _, bestIdx, _ => bestIdx
  | l :: ls, i, bestIdx, bestSize =>
    if l.queue.length < bestSize then
      getNextLinkIndexAux ls (i + 1) i l.queue.length
    else
      getNextLinkIndexAux ls (i + 1) bestIdx bestSize

/-- `CruDmaChannel::getNextLinkIndex`: index of the link with the fewest
pending superpages, ties to the lowest index.  The initial values are
`std::numeric_limits<LinkIndex>::max()` (`uint32_t`) and
`std::numeric_limits<size_t>::max()` (`uint64_t`). -/
def getNextLinkIndex (links : List Link) : Nat :=
  getNextLinkIndexAux links 0 (2 ^ 32 - 1) (2 ^ 64 - 1)

/-- `CruDmaChannel::pushSuperpageToLink`: decrement
`mLinkQueuesTotalAvailable`, append the superpage at the back of the link's
pending queue. -/
def pushSuperpageToLink (s : ChannelState) (idx : Nat) (sp : Superpage) :
    ChannelState :=
  { s with
    linkQueuesTotalAvailable := s.linkQueuesTotalAvailable - 1,
    links := s.links.modify (fun l => { l with queue := l.queue ++ [sp] }) idx }

/-- `CruDmaChannel::pushSuperpage`, without the base-class
`checkSuperpage` buffer validation (that code is outside this file's sources
and checks only offset/size against the DMA buffer, not queue state).
Returns the new state together with the list of descriptor-push commands
issued to the hardware, or the thrown exception message. -/
def pushSuperpage (linkQueueCapacity dmaPageSize : Nat) (busAddressOf : Nat → Nat)
    (s : ChannelState) (sp : Superpage) :
    Except String (ChannelState × List PushCommand) :=
  if s.linkQueuesTotalAvailable = 0 then
    .error "Could not push superpage, transfer queue was full"
  else
    let idx := getNextLinkIndex s.links
    match s.links[idx]? with
    | none => .error "link index out of range"
    | some link =>
      if linkQueueCapacity ≤ link.queue.length then
        .error "Could not push superpage, link queue was full"
      else
        let s' := pushSuperpageToLink s idx sp
        .ok (s', [{ linkId := link.id,
                    pageCount := sp.size / dmaPageSize,
                    busAddress := busAddressOf sp.offset }])

/-- The completion marking applied to the front superpage in
`transferSuperpageFromLinkToReady`: `setReady(true)` and
`setReceived(getSize())`. -/
def markFilled (sp : Superpage) : Superpage :=
  { sp with ready := true, received := sp.size }

/-- `CruDmaChannel::transferSuperpageFromLinkToReady`: mark the front of the
link's pending queue ready and fully received, move it to the back of the
ready queue, bump the link's shadow counter and the global slot counter. -/
def transferSuperpageFromLinkToReady (link : Link) (readyQueue : List Superpage)
    (avail : Nat) : Except String (Link × List Superpage × Nat) :=
  match link.queue with
  | [] =>
    .error "Could not transfer Superpage from link to ready queue, link queue is empty"
  | front :: rest =>
    .ok ({ link with queue := rest, superpageCounter := link.superpageCounter + 1 },
         readyQueue ++ [markFilled front], avail + 1)

/-- Inner loop of `CruDmaChannel::fillSuperpages`: up to `n` transfers from
one link, stopping as soon as the ready queue is at capacity. -/
def fillLinkLoop (readyQueueCapacity : Nat) :
    Nat → Link → List Superpage → Nat → Except String (Link × List Superpage × Nat)
  | 0, link, ready, avail => .ok (link, ready, avail)
  | n + 1, link, ready, avail =>
    if readyQueueCapacity ≤ ready.length then
      .ok (link, ready, avail)
    else
      match transferSuperpageFromLinkToReady link ready avail with
      | .error e => .error e
      | .ok (link', ready', avail') => fillLinkLoop readyQueueCapacity n link' ready' avail'

/-- Per-link body of `CruDmaChannel::fillSuperpages`: read the hardware
arrival count, check the fatal-consistency condition, then drain the newly
arrived superpages.  `hwCount` is `getSuperpageCount(link.id)`.  The
subtraction `superpageCount - link.superpageCounter` is guarded by
`superpageCount > link.superpageCounter`, so the `uint32_t` arithmetic cannot
wrap and plain `Nat` subtraction is exact. -/
def fillLink (readyQueueCapacity hwCount : Nat) (link : Link)
    (ready : List Superpage) (avail : Nat) :
    Except String (Link × List Superpage × Nat) :=
  if link.superpageCounter < hwCount then
    let amountAvailable := hwCount - link.superpageCounter
    if link.queue.length < amountAvailable then
      .error "FATAL: Firmware reported more superpages available than should be present in FIFO"
    else
      fillLinkLoop readyQueueCapacity amountAvailable link ready avail
  else
    .ok (link, ready, avail)

/-- Link-list traversal of `CruDmaChannel::fillSuperpages`.  A thrown
exception propagates out of the member function, but the mutations already
applied to earlier links remain in the object; hence on error the state
accumulated so far is kept and the error is returned alongside it. -/
def fillSuperpagesAux (readyQueueCapacity : Nat) (hw : Nat → Nat) :
    List Link → List Superpage → Nat →
    (List Link × List Superpage × Nat × Option String)
  | [], ready, avail => ([], ready, avail, none)
  | link :: rest, ready, avail =>
    match fillLink readyQueueCapacity (hw link.id) link ready avail with
    | .error e => (link :: rest, ready, avail, some e)
    | .ok (link', ready', avail') =>
      let (rest', ready'', avail'', err) :=
        fillSuperpagesAux readyQueueCapacity hw rest ready' avail'
      (link' :: rest', ready'', avail'', err)

/-- `CruDmaChannel::fillSuperpages`: one poll pass over all links.  Returns
the state after the call together with the thrown exception message, if
any. -/
def fillSuperpages (readyQueueCapacity : Nat) (hw : Nat → Nat)
    (s : ChannelState) : ChannelState × Option String :=
  let (links', ready', avail', err) :=
    fillSuperpagesAux readyQueueCapacity hw s.links s.readyQueue
      s.linkQueuesTotalAvailable
  ({ links := links', readyQueue := ready', linkQueuesTotalAvailable := avail' }, err)

/-- `CruDmaChannel::popSuperpage`: remove and return the front of the ready
queue. -/
def popSuperpage (s : ChannelState) : Except String (Superpage × ChannelState) :=
  match s.readyQueue with
  | [] => .error "Could not pop superpage, ready queue was empty"
  | front :: rest => .ok (front, { s with readyQueue := rest })

/-- `CruDmaChannel::getSuperpage`: return the front of the ready queue
without removing it. -/
def getSuperpage (s : ChannelState) : Except String Superpage :=
  match s.readyQueue with
  | [] => .error "Could not get superpage, ready queue was empty"
  | front :: _ => .ok front

/-- `CruDmaChannel::getTransferQueueAvailable`. -/
def getTransferQueueAvailable (s : ChannelState) : Nat :=
  s.linkQueuesTotalAvailable

/-- `CruDmaChannel::getReadyQueueSize`. -/
def getReadyQueueSize (s : ChannelState) : Nat :=
  s.readyQueue.length

/-- `CruDmaChannel::isTransferQueueEmpty` (all slots available). -/
def isTransferQueueEmpty (linkQueueCapacity : Nat) (s : ChannelState) : Bool :=
  s.linkQueuesTotalAvailable = linkQueueCapacity * s.links.length

/-- `CruDmaChannel::isReadyQueueFull`. -/
def isReadyQueueFull (readyQueueCapacity : Nat) (s : ChannelState) : Bool :=
  s.readyQueue.length = readyQueueCapacity

/-- The `LoopbackMode::type` values a constructed `CruDmaChannel` can hold
(`Diu`/`Siu` are rejected in the constructor, but the start-time check is
modelled over all of them, as in the code). -/
inductive LoopbackMode where
  | None | Internal | Ddg | Diu | Siu
  deriving Repr, DecidableEq

/-- `CruDmaChannel::deviceStartDma`, queue-engine part: validate the
generator/loopback combination (selecting the data source), then clear every
link's pending queue and counter, clear the ready queue and reset
`mLinkQueuesTotalAvailable` to full capacity; the hardware reset, buffer
arming and data-taking enablement are register-side effects outside the
modelled state. -/
def deviceStartDma (linkQueueCapacity : Nat) (generatorEnabled : Bool)
    (loopbackMode : LoopbackMode) (s : ChannelState) :
    Except String ChannelState :=
  let sel : Except String Unit :=
    if generatorEnabled then
      if loopbackMode = .Internal then .ok ()
      else if loopbackMode = .Ddg then .ok ()
      else .error "CRU only support 'Internal' or 'Ddg' for data generator"
    else
      if loopbackMode = .None then .ok ()
      else .error "CRU only supports 'None' loopback mode when operating without a data generator"
  match sel with
  | .error e => .error e
  | .ok _ =>
    .ok { links := s.links.map (fun l => { l with queue := [], superpageCounter := 0 }),
          readyQueue := [],
          linkQueuesTotalAvailable := linkQueueCapacity * s.links.length }

/-- Inner loop of `CruDmaChannel::deviceStopDma`: `n` iterations; each
iteration stops the whole loop if the ready queue is at capacity, and
otherwise transfers the front pending superpage if the pending queue is
nonempty (iterations with an empty pending queue are no-ops). -/
def stopDrainLoop (readyQueueCapacity : Nat) :
    Nat → Link → List Superpage → Nat → (Link × List Superpage × Nat)
  | 0, link, ready, avail => (link, ready, avail)
  | n + 1, link, ready, avail =>
    if readyQueueCapacity ≤ ready.length then
      (link, ready, avail)
    else
      match link.queue with
      | [] => stopDrainLoop readyQueueCapacity n link ready avail
      | _ :: _ =>
        match transferSuperpageFromLinkToReady link ready avail with
        | .ok (link', ready', avail') => stopDrainLoop readyQueueCapacity n link' ready' avail'
        | .error _ => (link, ready, avail)

/-- Per-link drain of `CruDmaChannel::deviceStopDma`:
`uint32_t amountAvailable = superpageCount - link.superpageCounter` is an
unguarded `uint32_t` subtraction, so it wraps modulo `2^32` when the hardware
count is below the shadow counter; the loop
`for (uint32_t i = 0; i < (amountAvailable + 1); ++i)` runs
`(amountAvailable + 1) % 2^32` times, because the bound `amountAvailable + 1`
is itself `uint32_t` and wraps to zero when `amountAvailable = 2^32 - 1`. -/
def stopDrainLink (readyQueueCapacity hwCount : Nat) (link : Link)
    (ready : List Superpage) (avail : Nat) : (Link × List Superpage × Nat) :=
  let amountAvailable := (hwCount % 2 ^ 32 + 2 ^ 32 - link.superpageCounter % 2 ^ 32) % 2 ^ 32
  stopDrainLoop readyQueueCapacity ((amountAvailable + 1) % 2 ^ 32) link ready avail

/-- Drain phase of `CruDmaChannel::deviceStopDma` over the link list.  The
two `assert` statements of the source (per-link pending queue empty, global
counter back at capacity) are checked by `stopDrainAssertsHold` below. -/
def stopDrainAux (readyQueueCapacity : Nat) (hw : Nat → Nat) :
    List Link → List Superpage → Nat → (List Link × List Superpage × Nat)
  | [], ready, avail => ([], ready, avail)
  | link :: rest, ready, avail =>
    let (link', ready', avail') := stopDrainLink readyQueueCapacity (hw link.id) link ready avail
    let (rest', ready'', avail'') := stopDrainAux readyQueueCapacity hw rest ready' avail'
    (link' :: rest', ready'', avail'')

/-- Queue-engine part of `CruDmaChannel::deviceStopDma`: drain every link
into the ready queue (buffer disarm and data-taking disable are register-side
effects outside the modelled state). -/
def deviceStopDma (readyQueueCapacity : Nat) (hw : Nat → Nat)
    (s : ChannelState) : ChannelState :=
  let (links', ready', avail') :=
    stopDrainAux readyQueueCapacity hw s.links s.readyQueue s.linkQueuesTotalAvailable
  { links := links', readyQueue := ready', linkQueuesTotalAvailable := avail' }

/-- The `assert`s of `CruDmaChannel::deviceStopDma`: after the drain, every
link's pending queue is empty and `mLinkQueuesTotalAvailable` equals
`LINK_QUEUE_CAPACITY * mLinks.size()`. -/
def stopDrainAssertsHold (linkQueueCapacity : Nat) (s : ChannelState) : Bool :=
  s.links.all (fun l => l.queue.isEmpty) &&
    s.linkQueuesTotalAvailable = linkQueueCapacity * s.links.length

/-- Total number of pending superpages across all links
(`Σ link.queue.size()`): the re-scan value the incremental counter must
match. -/
def pendingTotal (links : List Link) : Nat :=
  (links.map (fun l => l.queue.length)).sum

/-- The core counter invariant:
`mLinkQueuesTotalAvailable + Σ link.queue.size() = LINK_QUEUE_CAPACITY * mLinks.size()`. -/
def slotInvariant (linkQueueCapacity : Nat) (s : ChannelState) : Prop :=
  s.linkQueuesTotalAvailable + pendingTotal s.links =
    linkQueueCapacity * s.links.length

instance (linkQueueCapacity : Nat) (s : ChannelState) :
    Decidable (slotInvariant linkQueueCapacity s) := by
  unfold slotInvariant; infer_instance

/-- An operation of a producer/poller run: a `pushSuperpage` call or a
`fillSuperpages` poll pass against some hardware arrival counters (no
interleaved pops). -/
inductive Op where
  | push (sp : Superpage)
  | fill (hw : Nat → Nat)

/-- Apply one operation: a push that throws (queue full) leaves the state
unchanged, exactly as the C++ exception does; the list records the
superpages accepted by the push.  A fill keeps the state it produced even
when it throws the fatal error, as the C++ member function does. -/
def applyOp (linkQueueCapacity dmaPageSize readyQueueCapacity : Nat)
    (busAddressOf : Nat → Nat) (s : ChannelState) : Op → ChannelState × List Superpage
  | .push sp =>
    match pushSuperpage linkQueueCapacity dmaPageSize busAddressOf s sp with
    | .ok (s', _) => (s', [sp])
    | .error _ => (s, [])
  | .fill hw => ((fillSuperpages readyQueueCapacity hw s).1, [])

/-- Run a list of operations, collecting the accepted pushes in order. -/
def runOps (linkQueueCapacity dmaPageSize readyQueueCapacity : Nat)
    (busAddressOf : Nat → Nat) : ChannelState → List Op → ChannelState × List Superpage
  | s, [] => (s, [])
  | s, op :: ops =>
    let (s', acc) := applyOp linkQueueCapacity dmaPageSize readyQueueCapacity busAddressOf s op
    let (s'', accs) := runOps linkQueueCapacity dmaPageSize readyQueueCapacity busAddressOf s' ops
    (s'', acc ++ accs)

/-- The delivery order of a channel state: the ready queue followed by the
still-pending superpages (as they will look once filled), per link in
order. -/
def orderTrace (s : ChannelState) : List Superpage :=
  s.readyQueue ++ (s.links.map (fun l => l.queue.map markFilled)).flatten

/-! ## General lemmas about the fill loop and per-link processing -/

/-- A fill pass over a link with no new hardware arrivals is the identity:
the `available` guard of `fillSuperpages` is false, so the whole per-link
body is skipped. -/
theorem fillLink_of_le (readyQueueCapacity hwCount : Nat) (link : Link)
    (ready : List Superpage) (avail : Nat) (h : hwCount ≤ link.superpageCounter) :
    fillLink readyQueueCapacity hwCount link ready avail = .ok (link, ready, avail) := by
  simp [fillLink, Nat.not_lt.mpr h]

/-- If no link has new arrivals, the whole link traversal of
`fillSuperpages` is the identity and throws nothing. -/
theorem fillSuperpagesAux_no_arrivals (readyQueueCapacity : Nat) (hw : Nat → Nat) :
    ∀ (ls : List Link) (ready : List Superpage) (avail : Nat),
    (∀ l ∈ ls, hw l.id ≤ l.superpageCounter) →
    fillSuperpagesAux readyQueueCapacity hw ls ready avail = (ls, ready, avail, none)
  | [], _, _, _ => rfl
  | link :: rest, ready, avail, h => by
    have h0 : hw link.id ≤ link.superpageCounter := h link (List.mem_cons_self _ _)
    have hrest : ∀ l ∈ rest, hw l.id ≤ l.superpageCounter :=
      fun l hl => h l (List.mem_cons_of_mem _ hl)
    simp [fillSuperpagesAux, fillLink_of_le _ _ _ _ _ h0,
      fillSuperpagesAux_no_arrivals readyQueueCapacity hw rest ready avail hrest]

/-- Exact characterization of the inner fill loop: starting with at most as
many iterations as pending superpages, it moves
`min n (capacity - readyQueue.size)` superpages, oldest first, marking each
one filled, and bumps the shadow counter and the slot counter by the same
amount. -/
theorem fillLinkLoop_eq (readyQueueCapacity : Nat) :
    ∀ (n : Nat) (link : Link) (ready : List Superpage) (avail : Nat),
    n ≤ link.queue.length →
    fillLinkLoop readyQueueCapacity n link ready avail =
      .ok ({ link with
              queue := link.queue.drop (min n (readyQueueCapacity - ready.length)),
              superpageCounter :=
                link.superpageCounter + min n (readyQueueCapacity - ready.length) },
           ready ++ (link.queue.take (min n (readyQueueCapacity - ready.length))).map markFilled,
           avail + min n (readyQueueCapacity - ready.length)) := by
  intro n
  induction n with
  | zero =>
    intro link ready avail _
    simp [fillLinkLoop]
  | succ n ih =>
    intro link ready avail h
    by_cases hfull : readyQueueCapacity ≤ ready.length
    · have h0 : readyQueueCapacity - ready.length = 0 := Nat.sub_eq_zero_of_le hfull
      simp [fillLinkLoop, hfull, h0]
    · push_neg at hfull
      obtain ⟨id, queue, counter⟩ := link
      match queue, h with
      | front :: rest, h =>
        have hrest : n ≤ rest.length := by simpa using h
        have hmin : min (n + 1) (readyQueueCapacity - ready.length) =
            min n (readyQueueCapacity - (ready.length + 1)) + 1 := by omega
        simp only [fillLinkLoop, Nat.not_le.mpr hfull, if_neg (Nat.not_le.mpr hfull),
          transferSuperpageFromLinkToReady]
        rw [ih _ _ _ hrest]
        simp [hmin, Nat.add_assoc, Nat.add_comm 1]

/-- A fill pass over a link that does not trip the fatal-consistency check
always returns normally. -/
theorem fillLink_ok_of_not_violation (readyQueueCapacity hwCount : Nat) (link : Link)
    (ready : List Superpage) (avail : Nat)
    (h : ¬(link.superpageCounter < hwCount ∧
           link.queue.length < hwCount - link.superpageCounter)) :
    ∃ link' ready' avail',
      fillLink readyQueueCapacity hwCount link ready avail = .ok (link', ready', avail') := by
  by_cases hgt : link.superpageCounter < hwCount
  · have hle : hwCount - link.superpageCounter ≤ link.queue.length := by
      rcases Nat.lt_or_ge link.queue.length (hwCount - link.superpageCounter) with hc | hc
      · exact absurd ⟨hgt, hc⟩ h
      · exact hc
    rw [fillLink, if_pos hgt, if_neg (Nat.not_lt.mpr hle),
      fillLinkLoop_eq readyQueueCapacity _ link ready avail hle]
    exact ⟨_, _, _, rfl⟩
  · exact ⟨link, ready, avail, fillLink_of_le _ _ _ _ _ (Nat.not_lt.mp hgt)⟩

/-- Any normal return of the per-link fill body preserves the sum of the
slot counter and that link's pending-queue size, and moves pending
superpages to the back of the ready queue in order. -/
theorem fillLink_ok_inv (readyQueueCapacity hwCount : Nat) (link link' : Link)
    (ready ready' : List Superpage) (avail avail' : Nat)
    (h : fillLink readyQueueCapacity hwCount link ready avail = .ok (link', ready', avail')) :
    avail' + link'.queue.length = avail + link.queue.length ∧
    ready' ++ link'.queue.map markFilled = ready ++ link.queue.map markFilled := by
  by_cases hgt : link.superpageCounter < hwCount
  · by_cases hov : link.queue.length < hwCount - link.superpageCounter
    · simp [fillLink, hgt, hov] at h
    · have hle : hwCount - link.superpageCounter ≤ link.queue.length := Nat.not_lt.mp hov
      rw [fillLink, if_pos hgt, if_neg (Nat.not_lt.mpr hle),
        fillLinkLoop_eq readyQueueCapacity _ link ready avail hle] at h
      obtain ⟨h1, h2, h3⟩ := by simpa using h
      subst h1 h2 h3
      constructor
      · have := Nat.min_le_left (hwCount - link.superpageCounter)
          (readyQueueCapacity - ready.length)
        simp only [List.length_drop]
        omega
      · simp only [List.map_drop]
        rw [List.append_assoc, List.take_append_drop]
  · rw [fillLink_of_le _ _ _ _ _ (Nat.not_lt.mp hgt)] at h
    obtain ⟨h1, h2, h3⟩ := by simpa using h
    subst h1 h2 h3
    exact ⟨rfl, rfl⟩

theorem pendingTotal_nil : pendingTotal [] = 0 := rfl

theorem pendingTotal_cons (l : Link) (ls : List Link) :
    pendingTotal (l :: ls) = l.queue.length + pendingTotal ls := by
  simp [pendingTotal]

/-- Appending one superpage to the pending queue of an in-range link grows
the pending re-scan total by exactly one. -/
theorem pendingTotal_modify_append :
    ∀ (ls : List Link) (idx : Nat) (sp : Superpage), idx < ls.length →
    pendingTotal (ls.modify (fun l => { l with queue := l.queue ++ [sp] }) idx) =
      pendingTotal ls + 1
  | [], idx, _, h => absurd h (by simp)
  | l :: ls, 0, sp, _ => by
    simp [List.modify_zero_cons, pendingTotal_cons]
    omega
  | l :: ls, idx + 1, sp, h => by
    have : idx < ls.length := by simpa using h
    simp [List.modify_succ_cons, pendingTotal_cons,
      pendingTotal_modify_append ls idx sp this]
    omega

theorem pendingTotal_map_clear :
    ∀ ls : List Link,
    pendingTotal (ls.map (fun l => { l with queue := [], superpageCounter := 0 })) = 0
  | [] => rfl
  | l :: ls => by
    simp [pendingTotal_cons, pendingTotal_map_clear ls]

/-- Inversion of a successful `pushSuperpage`: the slot counter was nonzero,
the selected link existed with spare capacity, the state is the
`pushSuperpageToLink` update at the selected index, and exactly one
descriptor-push command was issued, carrying that link's id, the page count
`size / dmaPageSize` and the translated bus address. -/
theorem pushSuperpage_eq_ok (linkQueueCapacity dmaPageSize : Nat)
    (busAddressOf : Nat → Nat) (s : ChannelState) (sp : Superpage)
    (s' : ChannelState) (cmds : List PushCommand)
    (h : pushSuperpage linkQueueCapacity dmaPageSize busAddressOf s sp = .ok (s', cmds)) :
    s.linkQueuesTotalAvailable ≠ 0 ∧
    ∃ link, s.links[getNextLinkIndex s.links]? = some link ∧
      link.queue.length < linkQueueCapacity ∧
      s' = pushSuperpageToLink s (getNextLinkIndex s.links) sp ∧
      cmds = [{ linkId := link.id, pageCount := sp.size / dmaPageSize,
                busAddress := busAddressOf sp.offset }] := by
  by_cases h0 : s.linkQueuesTotalAvailable = 0
  · simp [pushSuperpage, h0] at h
  · refine ⟨h0, ?_⟩
    cases hidx : s.links[getNextLinkIndex s.links]? with
    | none => simp [pushSuperpage, h0, hidx] at h
    | some link =>
      by_cases hcap : linkQueueCapacity ≤ link.queue.length
      · simp [pushSuperpage, h0, hidx, hcap] at h
      · obtain ⟨h1, h2⟩ := by simpa [pushSuperpage, h0, hidx, hcap] using h
        exact ⟨link, rfl, Nat.not_le.mp hcap, h1.symm, h2.symm⟩

/-- Exact characterization of the inner drain loop of `deviceStopDma`: `n`
iterations move `min n (min pending (capacity - readySize))` superpages,
oldest first, marking each one filled (iterations on an emptied queue are
no-ops; the loop stops for good once the ready queue is at capacity). -/
theorem stopDrainLoop_eq (readyQueueCapacity : Nat) :
    ∀ (n : Nat) (link : Link) (ready : List Superpage) (avail : Nat),
    stopDrainLoop readyQueueCapacity n link ready avail =
      ({ link with
          queue := link.queue.drop
            (min n (min link.queue.length (readyQueueCapacity - ready.length))),
          superpageCounter := link.superpageCounter +
            min n (min link.queue.length (readyQueueCapacity - ready.length)) },
       ready ++ (link.queue.take
          (min n (min link.queue.length (readyQueueCapacity - ready.length)))).map markFilled,
       avail + min n (min link.queue.length (readyQueueCapacity - ready.length))) := by
  intro n
  induction n with
  | zero =>
    intro link ready avail
    simp [stopDrainLoop]
  | succ n ih =>
    intro link ready avail
    by_cases hfull : readyQueueCapacity ≤ ready.length
    · have h0 : readyQueueCapacity - ready.length = 0 := Nat.sub_eq_zero_of_le hfull
      simp [stopDrainLoop, hfull, h0]
    · push_neg at hfull
      obtain ⟨id, queue, counter⟩ := link
      cases queue with
      | nil =>
        simp [stopDrainLoop, Nat.not_le.mpr hfull, ih]
      | cons front rest =>
        have hmin : min (n + 1) (min (rest.length + 1) (readyQueueCapacity - ready.length)) =
            min n (min rest.length (readyQueueCapacity - (ready.length + 1))) + 1 := by
          omega
        simp only [stopDrainLoop, Nat.not_le.mpr hfull, if_neg (Nat.not_le.mpr hfull),
          transferSuperpageFromLinkToReady]
        rw [ih]
        simp [hmin, Nat.add_assoc, Nat.add_comm 1]

/-- The per-link stop drain preserves the sum of the slot counter and that
link's pending-queue size, and moves pending superpages to the back of the
ready queue in order. -/
theorem stopDrainLink_inv (readyQueueCapacity hwCount : Nat) (link : Link)
    (ready : List Superpage) (avail : Nat) :
    (stopDrainLink readyQueueCapacity hwCount link ready avail).2.2 +
        (stopDrainLink readyQueueCapacity hwCount link ready avail).1.queue.length =
      avail + link.queue.length ∧
    (stopDrainLink readyQueueCapacity hwCount link ready avail).2.1 ++
        (stopDrainLink readyQueueCapacity hwCount link ready avail).1.queue.map markFilled =
      ready ++ link.queue.map markFilled := by
  unfold stopDrainLink
  rw [stopDrainLoop_eq]
  constructor
  · simp only [List.length_drop]
    omega
  · simp only [List.map_drop, List.map_take]
    rw [List.append_assoc, List.take_append_drop]

/-- The stop drain over the link list preserves
`available + Σ pendingQueue.size`. -/
theorem stopDrainAux_slots (readyQueueCapacity : Nat) (hw : Nat → Nat) :
    ∀ (ls : List Link) (ready : List Superpage) (avail : Nat),
    (stopDrainAux readyQueueCapacity hw ls ready avail).2.2 +
        pendingTotal (stopDrainAux readyQueueCapacity hw ls ready avail).1 =
      avail + pendingTotal ls
  | [], _, _ => by simp [stopDrainAux, pendingTotal_nil]
  | link :: rest, ready, avail => by
    rcases hl : stopDrainLink readyQueueCapacity (hw link.id) link ready avail
      with ⟨link', ready', avail'⟩
    have hstep := (stopDrainLink_inv readyQueueCapacity (hw link.id) link ready avail).1
    rw [hl] at hstep
    rcases hrec : stopDrainAux readyQueueCapacity hw rest ready' avail'
      with ⟨rest', ready'', avail''⟩
    have ih := stopDrainAux_slots readyQueueCapacity hw rest ready' avail'
    rw [hrec] at ih
    simp only [stopDrainAux, hl, hrec, pendingTotal_cons]
    simp only at hstep ih
    omega

/-- The fill traversal over the link list preserves
`available + Σ pendingQueue.size`, whether or not it ends in the fatal
error. -/
theorem fillSuperpagesAux_slots (readyQueueCapacity : Nat) (hw : Nat → Nat) :
    ∀ (ls : List Link) (ready : List Superpage) (avail : Nat),
    (fillSuperpagesAux readyQueueCapacity hw ls ready avail).2.2.1 +
        pendingTotal (fillSuperpagesAux readyQueueCapacity hw ls ready avail).1 =
      avail + pendingTotal ls
  | [], _, _ => by simp [fillSuperpagesAux, pendingTotal_nil]
  | link :: rest, ready, avail => by
    cases hfl : fillLink readyQueueCapacity (hw link.id) link ready avail with
    | error e => simp [fillSuperpagesAux, hfl, pendingTotal_cons]
    | ok t =>
      rcases t with ⟨link', ready', avail'⟩
      have hstep := (fillLink_ok_inv readyQueueCapacity (hw link.id) link link'
        ready ready' avail avail' hfl).1
      rcases hrec : fillSuperpagesAux readyQueueCapacity hw rest ready' avail'
        with ⟨rest', ready'', avail'', err⟩
      have ih := fillSuperpagesAux_slots readyQueueCapacity hw rest ready' avail'
      rw [hrec] at ih
      simp only [fillSuperpagesAux, hfl, hrec, pendingTotal_cons]
      simp only at ih
      omega

theorem fillSuperpagesAux_length (readyQueueCapacity : Nat) (hw : Nat → Nat) :
    ∀ (ls : List Link) (ready : List Superpage) (avail : Nat),
    (fillSuperpagesAux readyQueueCapacity hw ls ready avail).1.length = ls.length
  | [], _, _ => rfl
  | link :: rest, ready, avail => by
    cases hfl : fillLink readyQueueCapacity (hw link.id) link ready avail with
    | error e => simp [fillSuperpagesAux, hfl]
    | ok t =>
      rcases t with ⟨link', ready', avail'⟩
      rcases hrec : fillSuperpagesAux readyQueueCapacity hw rest ready' avail'
        with ⟨rest', ready'', avail'', err⟩
      have ih := fillSuperpagesAux_length readyQueueCapacity hw rest ready' avail'
      rw [hrec] at ih
      simp only at ih
      simp [fillSuperpagesAux, hfl, hrec, ih]

theorem stopDrainAux_length (readyQueueCapacity : Nat) (hw : Nat → Nat) :
    ∀ (ls : List Link) (ready : List Superpage) (avail : Nat),
    (stopDrainAux readyQueueCapacity hw ls ready avail).1.length = ls.length
  | [], _, _ => rfl
  | link :: rest, ready, avail => by
    rcases hl : stopDrainLink readyQueueCapacity (hw link.id) link ready avail
      with ⟨link', ready', avail'⟩
    rcases hrec : stopDrainAux readyQueueCapacity hw rest ready' avail'
      with ⟨rest', ready'', avail''⟩
    have ih := stopDrainAux_length readyQueueCapacity hw rest ready' avail'
    rw [hrec] at ih
    simp only at ih
    simp [stopDrainAux, hl, hrec, ih]

/-- Inversion of a successful `deviceStartDma`: the state is fully
reinitialized — every link's pending queue cleared, every shadow counter
zeroed, the ready queue cleared, and the slot counter reset to full
capacity. -/
theorem deviceStartDma_ok_state (linkQueueCapacity : Nat) (generatorEnabled : Bool)
    (loopbackMode : LoopbackMode) (s s' : ChannelState)
    (h : deviceStartDma linkQueueCapacity generatorEnabled loopbackMode s = .ok s') :
    s' = { links := s.links.map (fun l => { l with queue := [], superpageCounter := 0 }),
           readyQueue := [],
           linkQueuesTotalAvailable := linkQueueCapacity * s.links.length } := by
  cases generatorEnabled <;> cases loopbackMode <;>
    simp [deviceStartDma] at h <;> exact h.symm

/-! ## Claim theorems -/

/-- C1: the counter invariant
`transferSlotsAvailable + Σ pendingQueue.size = perLinkCapacity × linkCount`
(`slotInvariant`, i.e. the incrementally maintained counter always equals
the re-scan value `capacity × linkCount − Σ pendingQueue.size`) is
established by `deviceStartDma` and preserved by every `pushSuperpage`,
`fillSuperpages` (also when it throws), `popSuperpage` and the
`deviceStopDma` drain. -/
theorem c1_slot_invariant (linkQueueCapacity dmaPageSize readyQueueCapacity : Nat)
    (busAddressOf : Nat → Nat) (hw : Nat → Nat) :
    (∀ (g : Bool) (lb : LoopbackMode) (s s' : ChannelState),
        deviceStartDma linkQueueCapacity g lb s = .ok s' →
        slotInvariant linkQueueCapacity s') ∧
    (∀ (s : ChannelState) (sp : Superpage) (s' : ChannelState) (cmds : List PushCommand),
        slotInvariant linkQueueCapacity s →
        pushSuperpage linkQueueCapacity dmaPageSize busAddressOf s sp = .ok (s', cmds) →
        slotInvariant linkQueueCapacity s') ∧
    (∀ s : ChannelState, slotInvariant linkQueueCapacity s →
        slotInvariant linkQueueCapacity (fillSuperpages readyQueueCapacity hw s).1) ∧
    (∀ (s : ChannelState) (sp : Superpage) (s' : ChannelState),
        slotInvariant linkQueueCapacity s → popSuperpage s = .ok (sp, s') →
        slotInvariant linkQueueCapacity s') ∧
    (∀ s : ChannelState, slotInvariant linkQueueCapacity s →
        slotInvariant linkQueueCapacity (deviceStopDma readyQueueCapacity hw s)) ∧
    (∀ s : ChannelState, slotInvariant linkQueueCapacity s →
        s.linkQueuesTotalAvailable =
          linkQueueCapacity * s.links.length - pendingTotal s.links) := by
  refine ⟨?start, ?push, ?fill, ?pop, ?stop, ?rescan⟩
  case start =>
    intro g lb s s' h
    rw [deviceStartDma_ok_state linkQueueCapacity g lb s s' h]
    simp [slotInvariant, pendingTotal_map_clear]
  case push =>
    intro s sp s' cmds hinv h
    obtain ⟨h0, link, hidx, -, hs', -⟩ :=
      pushSuperpage_eq_ok linkQueueCapacity dmaPageSize busAddressOf s sp s' cmds h
    have hlt : getNextLinkIndex s.links < s.links.length := by
      by_contra hge
      rw [List.getElem?_eq_none (Nat.le_of_not_lt hge)] at hidx
      exact Option.noConfusion hidx
    subst hs'
    have hmod := pendingTotal_modify_append s.links (getNextLinkIndex s.links) sp hlt
    simp only [slotInvariant, pushSuperpageToLink, List.length_modify] at *
    omega
  case fill =>
    intro s hinv
    have hslots := fillSuperpagesAux_slots readyQueueCapacity hw s.links s.readyQueue
      s.linkQueuesTotalAvailable
    have hlen := fillSuperpagesAux_length readyQueueCapacity hw s.links s.readyQueue
      s.linkQueuesTotalAvailable
    rcases hrec : fillSuperpagesAux readyQueueCapacity hw s.links s.readyQueue
      s.linkQueuesTotalAvailable with ⟨ls', r', a', err⟩
    rw [hrec] at hslots hlen
    simp only at hslots hlen
    simp only [slotInvariant] at hinv
    simp only [slotInvariant, fillSuperpages, hrec]
    rw [hlen]
    omega
  case pop =>
    intro s sp s' hinv h
    cases hq : s.readyQueue with
    | nil => simp [popSuperpage, hq] at h
    | cons front rest =>
      obtain ⟨-, h2⟩ := by simpa [popSuperpage, hq] using h
      subst h2
      simpa [slotInvariant] using hinv
  case stop =>
    intro s hinv
    have hslots := stopDrainAux_slots readyQueueCapacity hw s.links s.readyQueue
      s.linkQueuesTotalAvailable
    have hlen := stopDrainAux_length readyQueueCapacity hw s.links s.readyQueue
      s.linkQueuesTotalAvailable
    rcases hrec : stopDrainAux readyQueueCapacity hw s.links s.readyQueue
      s.linkQueuesTotalAvailable with ⟨ls', r', a'⟩
    rw [hrec] at hslots hlen
    simp only at hslots hlen
    simp only [slotInvariant] at hinv
    simp only [slotInvariant, deviceStopDma, hrec]
    rw [hlen]
    omega
  case rescan =>
    intro s hinv
    simp only [slotInvariant] at hinv
    omega

/-- Witness for C1: the push clause applied to a concrete two-link channel
at full availability. -/
theorem c1_slot_invariant_witness :
    slotInvariant 4
      { links := [{ id := 0, queue := [{ offset := 0, size := 8192 }] }, { id := 1 }],
        readyQueue := [], linkQueuesTotalAvailable := 7 } :=
  (c1_slot_invariant 4 8192 4 (fun o => o) (fun _ => 0)).2.1
    { links := [{ id := 0 }, { id := 1 }], readyQueue := [], linkQueuesTotalAvailable := 8 }
    { offset := 0, size := 8192 }
    { links := [{ id := 0, queue := [{ offset := 0, size := 8192 }] }, { id := 1 }],
      readyQueue := [], linkQueuesTotalAvailable := 7 }
    [{ linkId := 0, pageCount := 1, busAddress := 0 }]
    (by decide) rfl

/-- C2: in every state with `transferSlotsAvailable = 0`, `pushSuperpage`
fails with the queue-full error, and for no state and no command list does
it return normally.  In the source the throw at CruDmaChannel.cxx:253-257
sits at the top of the function, before link selection, before
`pushSuperpageToLink`'s counter decrement and queue append, and before the
`pushSuperpageDescriptor` call; the embedding mirrors this by taking the
error branch before constructing any successor state, so every link pending
queue, every shadow counter, the ready queue and the slot counter are left
untouched and no hardware descriptor command is issued. -/
theorem c2_push_queueFull (linkQueueCapacity dmaPageSize : Nat)
    (busAddressOf : Nat → Nat) (s : ChannelState) (sp : Superpage)
    (h : s.linkQueuesTotalAvailable = 0) :
    pushSuperpage linkQueueCapacity dmaPageSize busAddressOf s sp =
      .error "Could not push superpage, transfer queue was full" ∧
    ∀ (s' : ChannelState) (cmds : List PushCommand),
      pushSuperpage linkQueueCapacity dmaPageSize busAddressOf s sp ≠ .ok (s', cmds) := by
  have he : pushSuperpage linkQueueCapacity dmaPageSize busAddressOf s sp =
      .error "Could not push superpage, transfer queue was full" := by
    simp [pushSuperpage, h]
  exact ⟨he, fun s' cmds hok => by rw [he] at hok; exact Except.noConfusion hok⟩

/-- Witness for C2 at a concrete full channel. -/
theorem c2_push_queueFull_witness :
    pushSuperpage 4 8192 (fun o => o + 64)
        { links := [{ id := 0, queue := [{ offset := 0, size := 8192 }] }],
          linkQueuesTotalAvailable := 0 }
        { offset := 8192, size := 8192 } =
      .error "Could not push superpage, transfer queue was full" ∧
    ∀ (s' : ChannelState) (cmds : List PushCommand),
      pushSuperpage 4 8192 (fun o => o + 64)
          { links := [{ id := 0, queue := [{ offset := 0, size := 8192 }] }],
            linkQueuesTotalAvailable := 0 }
          { offset := 8192, size := 8192 } ≠ .ok (s', cmds) :=
  c2_push_queueFull 4 8192 (fun o => o + 64) _ _ rfl

/-- C10: a link whose hardware-reported arrival count is less than or equal
to its shadow `superpageCounter` (including the strictly-less,
non-monotonic case) is processed as a no-op by the fill pass: its pending
queue, its counter, the ready queue and the slot counter are returned
unchanged, and no error is raised — the fatal-consistency check sits inside
the `superpageCount > link.superpageCounter` branch and is never reached. -/
theorem c10_fillLink_stale_count (readyQueueCapacity hwCount : Nat) (link : Link)
    (ready : List Superpage) (avail : Nat) (h : hwCount ≤ link.superpageCounter) :
    fillLink readyQueueCapacity hwCount link ready avail = .ok (link, ready, avail) :=
  fillLink_of_le readyQueueCapacity hwCount link ready avail h

/-- Witness for C10 with a hardware count strictly below the shadow counter
(and a deeper pending queue, so the consistency check would have fired if it
were reached). -/
theorem c10_fillLink_stale_count_witness :
    fillLink 4 3 { id := 1, queue := [{ offset := 0, size := 8192 }], superpageCounter := 5 }
        [] 7 =
      .ok ({ id := 1, queue := [{ offset := 0, size := 8192 }], superpageCounter := 5 }, [], 7) :=
  c10_fillLink_stale_count 4 3 _ [] 7 (by decide)

/-- C8: `fillSuperpages` is idempotent in the absence of new arrivals: when
every link's hardware arrival count equals its shadow counter, the call
returns the state unchanged (every pending queue, the ready queue, every
counter and the slot counter) and raises no error. -/
theorem c8_fill_idempotent (readyQueueCapacity : Nat) (hw : Nat → Nat)
    (s : ChannelState)
    (h : ∀ l ∈ s.links, hw l.id = l.superpageCounter) :
    fillSuperpages readyQueueCapacity hw s = (s, none) := by
  unfold fillSuperpages
  rw [fillSuperpagesAux_no_arrivals readyQueueCapacity hw s.links s.readyQueue
    s.linkQueuesTotalAvailable (fun l hl => Nat.le_of_eq (h l hl))]

/-- The selection scan returns its accumulator when no remaining link beats
the running best size. -/
theorem getNextLinkIndexAux_ge :
    ∀ (ls : List Link) (i b sz : Nat),
    (∀ l ∈ ls, sz ≤ l.queue.length) → getNextLinkIndexAux ls i b sz = b
  | [], _, _, _, _ => rfl
  | l :: ls, i, b, sz, h => by
    have h0 : ¬ l.queue.length < sz := Nat.not_lt.mpr (h l (List.mem_cons_self _ _))
    rw [getNextLinkIndexAux, if_neg h0]
    exact getNextLinkIndexAux_ge ls (i + 1) b sz
      (fun l' hl' => h l' (List.mem_cons_of_mem _ hl'))

/-- The selection scan, when some remaining link beats the running best
size, returns the position of the first link attaining the minimum queue
size: the chosen link's queue is no longer than any other link's, and
strictly shorter than every earlier link's. -/
theorem getNextLinkIndexAux_lt :
    ∀ (ls : List Link) (i b sz : Nat),
    (∃ l ∈ ls, l.queue.length < sz) →
    ∃ (k : Nat) (link : Link), ls[k]? = some link ∧
      getNextLinkIndexAux ls i b sz = i + k ∧
      link.queue.length < sz ∧
      (∀ l' ∈ ls, link.queue.length ≤ l'.queue.length) ∧
      (∀ (j : Nat) (l' : Link), j < k → ls[j]? = some l' →
        link.queue.length < l'.queue.length)
  | [], _, _, _, h => absurd h (by simp)
  | l :: ls, i, b, sz, h => by
    by_cases hl : l.queue.length < sz
    · rw [getNextLinkIndexAux, if_pos hl]
      by_cases hex : ∃ l' ∈ ls, l'.queue.length < l.queue.length
      · obtain ⟨k', link, hk', heq, hlt, hmin, hstrict⟩ :=
          getNextLinkIndexAux_lt ls (i + 1) i l.queue.length hex
        refine ⟨k' + 1, link, by simpa using hk', by omega,
          Nat.lt_trans hlt hl, ?_, ?_⟩
        · intro l' hl'
          rcases List.mem_cons.mp hl' with h' | h'
          · subst h'; exact Nat.le_of_lt hlt
          · exact hmin l' h'
        · intro j l' hj hjl
          cases j with
          | zero =>
            obtain rfl : l = l' := by simpa using hjl
            exact hlt
          | succ j =>
            exact hstrict j l' (Nat.lt_of_succ_lt_succ hj) (by simpa using hjl)
      · push_neg at hex
        rw [getNextLinkIndexAux_ge ls (i + 1) i l.queue.length hex]
        refine ⟨0, l, by simp, by omega, hl, ?_, ?_⟩
        · intro l' hl'
          rcases List.mem_cons.mp hl' with h' | h'
          · subst h'; exact Nat.le_refl _
          · exact hex l' h'
        · intro j l' hj
          exact absurd hj (Nat.not_lt_zero j)
    · rw [getNextLinkIndexAux, if_neg hl]
      have hex : ∃ l' ∈ ls, l'.queue.length < sz := by
        obtain ⟨l', hl', hlen⟩ := h
        rcases List.mem_cons.mp hl' with h' | h'
        · subst h'; exact absurd hlen hl
        · exact ⟨l', h', hlen⟩
      obtain ⟨k', link, hk', heq, hlt, hmin, hstrict⟩ :=
        getNextLinkIndexAux_lt ls (i + 1) b sz hex
      refine ⟨k' + 1, link, by simpa using hk', by omega, hlt, ?_, ?_⟩
      · intro l' hl'
        rcases List.mem_cons.mp hl' with h' | h'
        · subst h'
          exact Nat.le_of_lt (Nat.lt_of_lt_of_le hlt (Nat.not_lt.mp hl))
        · exact hmin l' h'
      · intro j l' hj hjl
        cases j with
        | zero =>
          obtain rfl : l = l' := by simpa using hjl
          exact Nat.lt_of_lt_of_le hlt (Nat.not_lt.mp hl)
        | succ j =>
          exact hstrict j l' (Nat.lt_of_succ_lt_succ hj) (by simpa using hjl)

/-- `getNextLinkIndex` selects the least-loaded link, ties to the lowest
index, as long as some link's queue size is below the `size_t` sentinel. -/
theorem getNextLinkIndex_spec (links : List Link)
    (h : ∃ l ∈ links, l.queue.length < 2 ^ 64 - 1) :
    ∃ link, links[getNextLinkIndex links]? = some link ∧
      (∀ l' ∈ links, link.queue.length ≤ l'.queue.length) ∧
      (∀ (j : Nat) (l' : Link), j < getNextLinkIndex links → links[j]? = some l' →
        link.queue.length < l'.queue.length) := by
  obtain ⟨k, link, hk, heq, -, hmin, hstrict⟩ :=
    getNextLinkIndexAux_lt links 0 (2 ^ 32 - 1) (2 ^ 64 - 1) h
  have hidx : getNextLinkIndex links = k := by
    simpa [getNextLinkIndex] using heq
  rw [hidx]
  exact ⟨link, hk, hmin, hstrict⟩

/-- If every link's pending queue held at least `cap` superpages, the
re-scan total would reach `cap × linkCount`. -/
theorem pendingTotal_ge_of_all_ge (cap : Nat) :
    ∀ ls : List Link, (∀ l ∈ ls, cap ≤ l.queue.length) →
    cap * ls.length ≤ pendingTotal ls
  | [], _ => by simp [pendingTotal_nil]
  | l :: ls, h => by
    have h0 : cap ≤ l.queue.length := h l (List.mem_cons_self _ _)
    have ih := pendingTotal_ge_of_all_ge cap ls
      (fun l' hl' => h l' (List.mem_cons_of_mem _ hl'))
    simp only [pendingTotal_cons, List.length_cons]
    have : cap * (ls.length + 1) = cap * ls.length + cap := by ring
    omega

/-- Under the slot invariant, a free slot guarantees some link with spare
per-link capacity. -/
theorem exists_underfull_link (linkQueueCapacity : Nat) (s : ChannelState)
    (hinv : slotInvariant linkQueueCapacity s)
    (hpos : 0 < s.linkQueuesTotalAvailable) :
    ∃ l ∈ s.links, l.queue.length < linkQueueCapacity := by
  by_contra hall
  push_neg at hall
  have := pendingTotal_ge_of_all_ge linkQueueCapacity s.links
    (fun l hl => hall l hl)
  simp only [slotInvariant] at hinv
  omega

/-- C3: in a reachable state (the slot invariant holds) with a free slot,
`pushSuperpage` succeeds: the superpage is appended to the pending queue of
the least-loaded link (ties to the lowest link index), the slot counter
drops by exactly one, and exactly one descriptor-push command is issued to
the hardware, carrying the chosen link's id, the page count
`size / dmaPageSize` and the bus address translated from the superpage's
buffer offset. -/
theorem c3_push_selects_least_loaded (linkQueueCapacity dmaPageSize : Nat)
    (busAddressOf : Nat → Nat) (s : ChannelState) (sp : Superpage)
    (hinv : slotInvariant linkQueueCapacity s)
    (hpos : 0 < s.linkQueuesTotalAvailable)
    (hcap : linkQueueCapacity < 2 ^ 64) :
    ∃ link, s.links[getNextLinkIndex s.links]? = some link ∧
      (∀ l' ∈ s.links, link.queue.length ≤ l'.queue.length) ∧
      (∀ (j : Nat) (l' : Link), j < getNextLinkIndex s.links → s.links[j]? = some l' →
        link.queue.length < l'.queue.length) ∧
      pushSuperpage linkQueueCapacity dmaPageSize busAddressOf s sp =
        .ok ({ s with
                linkQueuesTotalAvailable := s.linkQueuesTotalAvailable - 1,
                links := s.links.modify (fun l => { l with queue := l.queue ++ [sp] })
                  (getNextLinkIndex s.links) },
             [{ linkId := link.id, pageCount := sp.size / dmaPageSize,
                busAddress := busAddressOf sp.offset }]) ∧
      (s.linkQueuesTotalAvailable - 1) + 1 = s.linkQueuesTotalAvailable ∧
      (s.links.modify (fun l => { l with queue := l.queue ++ [sp] })
          (getNextLinkIndex s.links))[getNextLinkIndex s.links]? =
        some { link with queue := link.queue ++ [sp] } := by
  obtain ⟨lw, hlw, hlwlen⟩ := exists_underfull_link linkQueueCapacity s hinv hpos
  obtain ⟨link, hidx, hmin, hstrict⟩ := getNextLinkIndex_spec s.links
    ⟨lw, hlw, by omega⟩
  have hlen : link.queue.length < linkQueueCapacity :=
    Nat.lt_of_le_of_lt (hmin lw hlw) hlwlen
  refine ⟨link, hidx, hmin, hstrict, ?_, by omega, ?_⟩
  · rw [pushSuperpage, if_neg (Nat.not_eq_zero_of_lt hpos)]
    simp only [hidx, if_neg (Nat.not_le.mpr hlen)]
    rfl
  · rw [List.getElem?_modify_eq, hidx]
    rfl

/-- Witness for C3: two links with pending depths 2 and 1 — the push goes
to link index 1 (the least-loaded), with one descriptor command for link id
7 and page count `24576 / 8192 = 3`. -/
theorem c3_push_selects_least_loaded_witness :
    ∃ link,
      [{ id := 4, queue := [{ offset := 0, size := 8192 },
                            { offset := 8192, size := 8192 }], superpageCounter := 0 },
       { id := 7, queue := [{ offset := 16384, size := 8192 }],
         superpageCounter := 0 : Link }][getNextLinkIndex
          [{ id := 4, queue := [{ offset := 0, size := 8192 },
                                { offset := 8192, size := 8192 }], superpageCounter := 0 },
           { id := 7, queue := [{ offset := 16384, size := 8192 }],
             superpageCounter := 0 }]]? = some link ∧
      (∀ l' ∈ [{ id := 4, queue := [{ offset := 0, size := 8192 },
                                    { offset := 8192, size := 8192 }], superpageCounter := 0 },
               { id := 7, queue := [{ offset := 16384, size := 8192 }],
                 superpageCounter := 0 : Link }],
        link.queue.length ≤ l'.queue.length) ∧
      (∀ (j : Nat) (l' : Link),
        j < getNextLinkIndex
              [{ id := 4, queue := [{ offset := 0, size := 8192 },
                                    { offset := 8192, size := 8192 }], superpageCounter := 0 },
               { id := 7, queue := [{ offset := 16384, size := 8192 }],
                 superpageCounter := 0 }] →
        [{ id := 4, queue := [{ offset := 0, size := 8192 },
                              { offset := 8192, size := 8192 }], superpageCounter := 0 },
         { id := 7, queue := [{ offset := 16384, size := 8192 }],
           superpageCounter := 0 : Link }][j]? = some l' →
        link.queue.length < l'.queue.length) ∧
      pushSuperpage 4 8192 (fun o => o * 2)
          { links := [{ id := 4, queue := [{ offset := 0, size := 8192 },
                                           { offset := 8192, size := 8192 }],
                        superpageCounter := 0 },
                      { id := 7, queue := [{ offset := 16384, size := 8192 }],
                        superpageCounter := 0 }],
            readyQueue := [], linkQueuesTotalAvailable := 5 }
          { offset := 24576, size := 24576 } =
        .ok ({ links := [{ id := 4, queue := [{ offset := 0, size := 8192 },
                                              { offset := 8192, size := 8192 }],
                           superpageCounter := 0 },
                         { id := 7, queue := [{ offset := 16384, size := 8192 }],
                           superpageCounter := 0 }],
               readyQueue := [],
               linkQueuesTotalAvailable := 5 : ChannelState }.links.modify
                 (fun l => { l with queue := l.queue ++ [{ offset := 24576, size := 24576 }] })
                 (getNextLinkIndex
                   [{ id := 4, queue := [{ offset := 0, size := 8192 },
                                         { offset := 8192, size := 8192 }],
                      superpageCounter := 0 },
                    { id := 7, queue := [{ offset := 16384, size := 8192 }],
                      superpageCounter := 0 }]) |>
              (fun ls => { links := ls, readyQueue := [], linkQueuesTotalAvailable := 4 }),
             [{ linkId := link.id, pageCount := 3, busAddress := 49152 }]) := by
  have h := c3_push_selects_least_loaded 4 8192 (fun o => o * 2)
    { links := [{ id := 4, queue := [{ offset := 0, size := 8192 },
                                     { offset := 8192, size := 8192 }],
                  superpageCounter := 0 },
                { id := 7, queue := [{ offset := 16384, size := 8192 }],
                  superpageCounter := 0 }],
      readyQueue := [], linkQueuesTotalAvailable := 5 }
    { offset := 24576, size := 24576 } (by decide) (by decide) (by decide)
  obtain ⟨link, hidx, hmin, hstrict, hpush, -, -⟩ := h
  exact ⟨link, hidx, hmin, hstrict, hpush⟩

/-- C5: when the hardware reports `d` new arrivals on a link
(`d = hwCount - superpageCounter`, positive and at most the pending-queue
size), the fill pass moves exactly `min d (capacity - readyQueue.size)`
superpages, oldest first, from that link's pending queue to the back of the
ready queue; each moved superpage is marked `ready = true` with
`received = size`, and the link's shadow counter and the global slot counter
each grow by the number of moved superpages; the remaining completions stay
in the pending queue. -/
theorem c5_fillLink_moves (readyQueueCapacity hwCount : Nat) (link : Link)
    (ready : List Superpage) (avail : Nat)
    (hgt : link.superpageCounter < hwCount)
    (hle : hwCount - link.superpageCounter ≤ link.queue.length) :
    fillLink readyQueueCapacity hwCount link ready avail =
      .ok ({ link with
              queue := link.queue.drop
                (min (hwCount - link.superpageCounter) (readyQueueCapacity - ready.length)),
              superpageCounter := link.superpageCounter +
                min (hwCount - link.superpageCounter) (readyQueueCapacity - ready.length) },
           ready ++ (link.queue.take
              (min (hwCount - link.superpageCounter) (readyQueueCapacity - ready.length))).map
                markFilled,
           avail + min (hwCount - link.superpageCounter) (readyQueueCapacity - ready.length)) := by
  rw [fillLink, if_pos hgt, if_neg (Nat.not_lt.mpr hle)]
  exact fillLinkLoop_eq readyQueueCapacity _ link ready avail hle

/-- Witness for C5: three pending superpages, two reported arrivals, but
only one free ready-queue slot — exactly one superpage moves, the oldest,
marked filled; the second completion stays pending. -/
theorem c5_fillLink_moves_witness :
    fillLink 2 2
        { id := 3,
          queue := [{ offset := 0, size := 8192 }, { offset := 8192, size := 8192 },
                    { offset := 16384, size := 8192 }],
          superpageCounter := 0 }
        [{ offset := 90, size := 10, received := 10, ready := true }] 5 =
      .ok ({ id := 3,
             queue := [{ offset := 8192, size := 8192 }, { offset := 16384, size := 8192 }],
             superpageCounter := 1 },
           [{ offset := 90, size := 10, received := 10, ready := true },
            { offset := 0, size := 8192, received := 8192, ready := true }],
           6) := by
  have h := c5_fillLink_moves 2 2
    { id := 3,
      queue := [{ offset := 0, size := 8192 }, { offset := 8192, size := 8192 },
                { offset := 16384, size := 8192 }],
      superpageCounter := 0 }
    [{ offset := 90, size := 10, received := 10, ready := true }] 5 (by decide) (by decide)
  simpa [markFilled] using h

/-- The per-link fill body throws the fatal consistency error exactly when
the hardware count exceeds the shadow counter by more than the pending-queue
depth, before touching anything. -/
theorem fillLink_violation (readyQueueCapacity hwCount : Nat) (link : Link)
    (ready : List Superpage) (avail : Nat)
    (h1 : link.superpageCounter < hwCount)
    (h2 : link.queue.length < hwCount - link.superpageCounter) :
    fillLink readyQueueCapacity hwCount link ready avail =
      .error "FATAL: Firmware reported more superpages available than should be present in FIFO" := by
  simp [fillLink, h1, h2]

/-- If the first consistency violation sits at link index `j`, the fill
traversal processes exactly the links before `j` (normally, with no error),
leaves the links from `j` on — the violating link included — completely
untouched, and aborts with the fatal error. -/
theorem fillSuperpagesAux_first_violation (readyQueueCapacity : Nat) (hw : Nat → Nat) :
    ∀ (j : Nat) (ls : List Link) (ready : List Superpage) (avail : Nat) (link : Link),
    ls[j]? = some link →
    link.superpageCounter < hw link.id →
    link.queue.length < hw link.id - link.superpageCounter →
    (∀ (i : Nat) (l' : Link), i < j → ls[i]? = some l' →
      ¬(l'.superpageCounter < hw l'.id ∧
        l'.queue.length < hw l'.id - l'.superpageCounter)) →
    ∃ linksPre readyPre availPre,
      fillSuperpagesAux readyQueueCapacity hw (ls.take j) ready avail =
        (linksPre, readyPre, availPre, none) ∧
      fillSuperpagesAux readyQueueCapacity hw ls ready avail =
        (linksPre ++ ls.drop j, readyPre, availPre,
         some "FATAL: Firmware reported more superpages available than should be present in FIFO")
  | 0, ls, ready, avail, link, hj, hgt, hover, _ => by
    cases ls with
    | nil => exact absurd hj (by simp)
    | cons l0 rest =>
      obtain rfl : l0 = link := by simpa using hj
      exact ⟨[], ready, avail, rfl, by
        simp [fillSuperpagesAux,
          fillLink_violation readyQueueCapacity (hw l0.id) l0 ready avail hgt hover]⟩
  | j + 1, ls, ready, avail, link, hj, hgt, hover, hfirst => by
    cases ls with
    | nil => exact absurd hj (by simp)
    | cons l0 rest =>
      have hnv : ¬(l0.superpageCounter < hw l0.id ∧
          l0.queue.length < hw l0.id - l0.superpageCounter) :=
        hfirst 0 l0 (Nat.succ_pos j) (by simp)
      obtain ⟨l0', r', a', hok⟩ :=
        fillLink_ok_of_not_violation readyQueueCapacity (hw l0.id) l0 ready avail hnv
      obtain ⟨lp, rp, ap, hpre, hfull⟩ :=
        fillSuperpagesAux_first_violation readyQueueCapacity hw j rest r' a' link
          (by simpa using hj) hgt hover
          (fun i l' hi hil =>
            hfirst (i + 1) l' (Nat.succ_lt_succ hi) (by simpa using hil))
      refine ⟨l0' :: lp, rp, ap, ?_, ?_⟩
      · simp [fillSuperpagesAux, hok, hpre]
      · simp [fillSuperpagesAux, hok, hfull]

/-- C4: if the hardware count for the link at index `j` exceeds that link's
shadow counter by more than its pending-queue depth (and no earlier link
violates — `j` is the first violation), then `fillSuperpages` throws the
fatal protocol-violation error; the violating link and every later link keep
their pending queues and counters untouched, and the returned ready queue
and slot counter are exactly those produced by the links before `j`, so no
mutation is performed for the violating link. -/
theorem c4_fill_fatal_violation (readyQueueCapacity : Nat) (hw : Nat → Nat)
    (s : ChannelState) (j : Nat) (link : Link)
    (hj : s.links[j]? = some link)
    (hgt : link.superpageCounter < hw link.id)
    (hover : link.queue.length < hw link.id - link.superpageCounter)
    (hfirst : ∀ (i : Nat) (l' : Link), i < j → s.links[i]? = some l' →
      ¬(l'.superpageCounter < hw l'.id ∧
        l'.queue.length < hw l'.id - l'.superpageCounter)) :
    ∃ linksPre readyPre availPre,
      fillSuperpagesAux readyQueueCapacity hw (s.links.take j) s.readyQueue
          s.linkQueuesTotalAvailable = (linksPre, readyPre, availPre, none) ∧
      fillSuperpages readyQueueCapacity hw s =
        ({ links := linksPre ++ s.links.drop j, readyQueue := readyPre,
           linkQueuesTotalAvailable := availPre },
         some "FATAL: Firmware reported more superpages available than should be present in FIFO") ∧
      (∀ i : Nat, j ≤ i → (linksPre ++ s.links.drop j)[i]? = s.links[i]?) := by
  obtain ⟨lp, rp, ap, hpre, hfull⟩ :=
    fillSuperpagesAux_first_violation readyQueueCapacity hw j s.links s.readyQueue
      s.linkQueuesTotalAvailable link hj hgt hover hfirst
  have hjlt : j < s.links.length := by
    by_contra hge
    rw [List.getElem?_eq_none (Nat.le_of_not_lt hge)] at hj
    exact Option.noConfusion hj
  have hlp : lp.length = j := by
    have hl := fillSuperpagesAux_length readyQueueCapacity hw (s.links.take j) s.readyQueue
      s.linkQueuesTotalAvailable
    rw [hpre] at hl
    simp [Nat.min_eq_left (Nat.le_of_lt hjlt)] at hl
    omega
  refine ⟨lp, rp, ap, hpre, by simp [fillSuperpages, hfull], ?_⟩
  intro i hi
  rw [List.getElem?_append_right (by omega), hlp, List.getElem?_drop]
  congr 1
  omega

/-- Witness for C4: two links, the second (index 1) reporting three arrivals
against a single pending superpage; the first link has one genuine arrival
and is drained, the second is untouched and the call aborts fatally. -/
theorem c4_fill_fatal_violation_witness :
    ∃ linksPre readyPre availPre,
      fillSuperpagesAux 4 (fun i => if i = 0 then 1 else 3)
          (({ links := [{ id := 0, queue := [{ offset := 0, size := 8192 }],
                          superpageCounter := 0 },
                        { id := 1, queue := [{ offset := 8192, size := 8192 }],
                          superpageCounter := 0 }],
              readyQueue := [], linkQueuesTotalAvailable := 6 : ChannelState }).links.take 1)
          [] 6 = (linksPre, readyPre, availPre, none) ∧
      fillSuperpages 4 (fun i => if i = 0 then 1 else 3)
          { links := [{ id := 0, queue := [{ offset := 0, size := 8192 }],
                        superpageCounter := 0 },
                      { id := 1, queue := [{ offset := 8192, size := 8192 }],
                        superpageCounter := 0 }],
            readyQueue := [], linkQueuesTotalAvailable := 6 } =
        ({ links := linksPre ++
              [{ id := 1, queue := [{ offset := 8192, size := 8192 }],
                 superpageCounter := 0 }],
           readyQueue := readyPre, linkQueuesTotalAvailable := availPre },
         some "FATAL: Firmware reported more superpages available than should be present in FIFO") ∧
      (∀ i : Nat, 1 ≤ i →
        (linksPre ++
            ([{ id := 1, queue := [{ offset := 8192, size := 8192 }],
                superpageCounter := 0 }] : List Link))[i]? =
          ([{ id := 0, queue := [{ offset := 0, size := 8192 }], superpageCounter := 0 },
            { id := 1, queue := [{ offset := 8192, size := 8192 }],
              superpageCounter := 0 }] : List Link)[i]?) := by
  have h := c4_fill_fatal_violation 4 (fun i => if i = 0 then 1 else 3)
    { links := [{ id := 0, queue := [{ offset := 0, size := 8192 }],
                  superpageCounter := 0 },
                { id := 1, queue := [{ offset := 8192, size := 8192 }],
                  superpageCounter := 0 }],
      readyQueue := [], linkQueuesTotalAvailable := 6 }
    1 { id := 1, queue := [{ offset := 8192, size := 8192 }], superpageCounter := 0 }
    (by decide) (by decide) (by decide)
    (by
      intro i l' hi hil
      interval_cases i
      simp only [List.getElem?_cons_zero, Option.some.injEq] at hil
      subst hil
      decide)
  simpa using h

/-- Witness for C8 on a concrete two-link state with nonzero counters. -/
theorem c8_fill_idempotent_witness :
    fillSuperpages 4 (fun i => if i = 0 then 2 else 7)
        { links := [{ id := 0, queue := [{ offset := 0, size := 8192 }], superpageCounter := 2 },
                    { id := 5, queue := [], superpageCounter := 7 }],
          readyQueue := [{ offset := 16384, size := 8192, received := 8192, ready := true }],
          linkQueuesTotalAvailable := 6 } =
      ({ links := [{ id := 0, queue := [{ offset := 0, size := 8192 }], superpageCounter := 2 },
                   { id := 5, queue := [], superpageCounter := 7 }],
         readyQueue := [{ offset := 16384, size := 8192, received := 8192, ready := true }],
         linkQueuesTotalAvailable := 6 }, none) :=
  c8_fill_idempotent 4 _ _ (by decide)

/-- C7: `deviceStartDma` throws the unsupported-configuration error exactly
when the generator/loopback combination is invalid for the CRU — generator
enabled with a loopback other than `Internal` or `Ddg`, or generator
disabled with a loopback other than `None` — and on success it clears every
link's pending queue, zeroes every shadow counter, clears the ready queue
and resets the slot counter to full capacity (all before the buffer is
armed, which happens after this queue reinitialization in the source). -/
theorem c7_start_validation (linkQueueCapacity : Nat) (generatorEnabled : Bool)
    (loopbackMode : LoopbackMode) (s : ChannelState) :
    ((∃ e, deviceStartDma linkQueueCapacity generatorEnabled loopbackMode s = .error e) ↔
      ¬((generatorEnabled = true ∧
          (loopbackMode = .Internal ∨ loopbackMode = .Ddg)) ∨
        (generatorEnabled = false ∧ loopbackMode = .None))) ∧
    (((generatorEnabled = true ∧ (loopbackMode = .Internal ∨ loopbackMode = .Ddg)) ∨
        (generatorEnabled = false ∧ loopbackMode = .None)) →
      deviceStartDma linkQueueCapacity generatorEnabled loopbackMode s =
        .ok { links := s.links.map (fun l => { l with queue := [], superpageCounter := 0 }),
              readyQueue := [],
              linkQueuesTotalAvailable := linkQueueCapacity * s.links.length }) := by
  cases generatorEnabled <;> cases loopbackMode <;> simp [deviceStartDma]

/-- Witness for C7: a successful start on a dirty one-link channel resets
everything. -/
theorem c7_start_validation_witness :
    deviceStartDma 4 true LoopbackMode.Internal
        { links := [{ id := 0, queue := [{ offset := 0, size := 8192 }],
                      superpageCounter := 3 }],
          readyQueue := [{ offset := 8192, size := 8192, received := 8192, ready := true }],
          linkQueuesTotalAvailable := 1 } =
      .ok { links := [{ id := 0, queue := [], superpageCounter := 0 }],
            readyQueue := [], linkQueuesTotalAvailable := 4 } :=
  (c7_start_validation 4 true LoopbackMode.Internal
      { links := [{ id := 0, queue := [{ offset := 0, size := 8192 }],
                    superpageCounter := 3 }],
        readyQueue := [{ offset := 8192, size := 8192, received := 8192, ready := true }],
        linkQueuesTotalAvailable := 1 }).2
    (Or.inl ⟨rfl, Or.inl rfl⟩)

/-- Counterexample to C6 as stated: the post-drain condition does not hold
for every prior state and every hardware count.  One link with two pending
superpages and the hardware reporting zero arrivals: the drain loop runs
`(0 - 0) + 1 = 1` iteration, moves one superpage, and leaves the second
pending, with the slot counter at 3 instead of full capacity 4 (the state
the source's `assert`s reject). -/
theorem c6_stop_drain_counterexample :
    stopDrainAssertsHold 4
        (deviceStopDma 4 (fun _ => 0)
          { links := [{ id := 0,
                        queue := [{ offset := 0, size := 8192 },
                                  { offset := 8192, size := 8192 }],
                        superpageCounter := 0 }],
            readyQueue := [], linkQueuesTotalAvailable := 2 }) = false ∧
    slotInvariant 4
      { links := [{ id := 0,
                    queue := [{ offset := 0, size := 8192 },
                              { offset := 8192, size := 8192 }],
                    superpageCounter := 0 }],
        readyQueue := [], linkQueuesTotalAvailable := 2 } ∧
    (deviceStopDma 4 (fun _ => 0)
        { links := [{ id := 0,
                      queue := [{ offset := 0, size := 8192 },
                                { offset := 8192, size := 8192 }],
                      superpageCounter := 0 }],
          readyQueue := [], linkQueuesTotalAvailable := 2 }).links.all
        (fun l => l.queue.isEmpty) = false := by
  refine ⟨by decide, by decide, by decide⟩

/-- The per-link stop drain under a trustworthy hardware count
(`superpageCounter ≤ hwCount < 2^32`) whose `uint32_t` loop bound
`delta + 1` does not wrap either (`delta + 1 < 2^32`): the loop moves
`min (delta + 1) (min pending (capacity - readySize))` superpages, oldest
first. -/
theorem stopDrainLink_eq (readyQueueCapacity hwCount : Nat) (link : Link)
    (ready : List Superpage) (avail : Nat)
    (hle : link.superpageCounter ≤ hwCount) (hlt : hwCount < 2 ^ 32)
    (hbound : hwCount - link.superpageCounter + 1 < 2 ^ 32) :
    stopDrainLink readyQueueCapacity hwCount link ready avail =
      ({ link with
          queue := link.queue.drop
            (min (hwCount - link.superpageCounter + 1)
              (min link.queue.length (readyQueueCapacity - ready.length))),
          superpageCounter := link.superpageCounter +
            min (hwCount - link.superpageCounter + 1)
              (min link.queue.length (readyQueueCapacity - ready.length)) },
       ready ++ (link.queue.take
          (min (hwCount - link.superpageCounter + 1)
            (min link.queue.length (readyQueueCapacity - ready.length)))).map markFilled,
       avail + min (hwCount - link.superpageCounter + 1)
          (min link.queue.length (readyQueueCapacity - ready.length))) := by
  have hmod : (hwCount % 2 ^ 32 + 2 ^ 32 - link.superpageCounter % 2 ^ 32) % 2 ^ 32 =
      hwCount - link.superpageCounter := by omega
  have hmod2 : (hwCount - link.superpageCounter + 1) % 2 ^ 32 =
      hwCount - link.superpageCounter + 1 := Nat.mod_eq_of_lt hbound
  rw [stopDrainLink, hmod, hmod2, stopDrainLoop_eq]

/-- The wrap corner of the stop drain: when the hardware count sits exactly
`2^32 - 1` ahead of the shadow counter (here counter `0` and register value
`0xFFFFFFFF`), the `uint32_t` loop bound `amountAvailable + 1` wraps to
zero, the loop body never runs, and nothing is drained for that link. -/
theorem stopDrainLink_bound_wraps (readyQueueCapacity : Nat) (link : Link)
    (ready : List Superpage) (avail : Nat) (h0 : link.superpageCounter = 0) :
    stopDrainLink readyQueueCapacity (2 ^ 32 - 1) link ready avail =
      (link, ready, avail) := by
  have hb : (((2 ^ 32 - 1) % 2 ^ 32 + 2 ^ 32 - link.superpageCounter % 2 ^ 32) % 2 ^ 32 + 1)
      % 2 ^ 32 = 0 := by
    rw [h0]
    norm_num
  rw [stopDrainLink, hb]
  rfl

/-- When every link's hardware count covers its whole pending queue (within
the one-extra-superpage allowance) and the ready queue has room for all of
them, the stop drain empties every pending queue, moving everything to the
ready queue in order. -/
theorem stopDrainAux_drains_all (readyQueueCapacity : Nat) (hw : Nat → Nat) :
    ∀ (ls : List Link) (ready : List Superpage) (avail : Nat),
    (∀ l ∈ ls, l.superpageCounter ≤ hw l.id ∧ hw l.id < 2 ^ 32 ∧
      hw l.id - l.superpageCounter + 1 < 2 ^ 32 ∧
      l.queue.length ≤ hw l.id - l.superpageCounter + 1) →
    ready.length + pendingTotal ls ≤ readyQueueCapacity →
    stopDrainAux readyQueueCapacity hw ls ready avail =
      (ls.map (fun l =>
        { l with queue := [], superpageCounter := l.superpageCounter + l.queue.length }),
       ready ++ (ls.map (fun l => l.queue.map markFilled)).flatten,
       avail + pendingTotal ls)
  | [], ready, avail, _, _ => by simp [stopDrainAux, pendingTotal_nil]
  | link :: rest, ready, avail, hcover, hroom => by
    obtain ⟨h1, h2, hnw, h3⟩ := hcover link (List.mem_cons_self _ _)
    have hpt : pendingTotal (link :: rest) = link.queue.length + pendingTotal rest :=
      pendingTotal_cons link rest
    have hm : min (hw link.id - link.superpageCounter + 1)
        (min link.queue.length (readyQueueCapacity - ready.length)) =
        link.queue.length := by omega
    have hstep := stopDrainLink_eq readyQueueCapacity (hw link.id) link ready avail h1 h2 hnw
    rw [hm] at hstep
    have ih := stopDrainAux_drains_all readyQueueCapacity hw rest
      (ready ++ (link.queue.take link.queue.length).map markFilled)
      (avail + link.queue.length)
      (fun l hl => hcover l (List.mem_cons_of_mem _ hl))
      (by simp; omega)
    simp only [stopDrainAux, hstep, ih]
    rw [List.drop_length, List.take_length]
    simp [hpt, List.append_assoc]
    omega

/-- C6 corrected: the universally-quantified post-drain condition fails (see
the counterexample), but the drain behaves as specified once the hardware
count is trusted and the `uint32_t` loop bound does not wrap: whenever each
link's reported delta satisfies `counter ≤ hw < 2^32` with
`delta + 1 < 2^32`, the delta plus the one-extra allowance covers its
pending queue, and the ready queue has room, the post-drain state satisfies
the source's `assert`s — every pending queue empty and the slot counter back
at full capacity — and the pending superpages all appear, marked filled and
in order, at the back of the ready queue.  The final conjunct records the
wrap corner excluded by those hypotheses: at a delta of exactly `2^32 - 1`
the `uint32_t` bound `amountAvailable + 1` wraps to zero and that link
drains nothing. -/
theorem c6_stop_drain_amended (linkQueueCapacity readyQueueCapacity : Nat)
    (hw : Nat → Nat) (s : ChannelState)
    (hinv : slotInvariant linkQueueCapacity s)
    (hcover : ∀ l ∈ s.links, l.superpageCounter ≤ hw l.id ∧ hw l.id < 2 ^ 32 ∧
      hw l.id - l.superpageCounter + 1 < 2 ^ 32 ∧
      l.queue.length ≤ hw l.id - l.superpageCounter + 1)
    (hroom : s.readyQueue.length + pendingTotal s.links ≤ readyQueueCapacity) :
    (deviceStopDma readyQueueCapacity hw s).links.all (fun l => l.queue.isEmpty) = true ∧
    (deviceStopDma readyQueueCapacity hw s).linkQueuesTotalAvailable =
      linkQueueCapacity * (deviceStopDma readyQueueCapacity hw s).links.length ∧
    stopDrainAssertsHold linkQueueCapacity (deviceStopDma readyQueueCapacity hw s) = true ∧
    (deviceStopDma readyQueueCapacity hw s).readyQueue =
      s.readyQueue ++ (s.links.map (fun l => l.queue.map markFilled)).flatten ∧
    (∀ (readyCap : Nat) (link : Link) (ready : List Superpage) (avail : Nat),
      link.superpageCounter = 0 →
      stopDrainLink readyCap (2 ^ 32 - 1) link ready avail = (link, ready, avail)) := by
  have hdrain := stopDrainAux_drains_all readyQueueCapacity hw s.links s.readyQueue
    s.linkQueuesTotalAvailable hcover hroom
  simp only [slotInvariant] at hinv
  have hfull : s.linkQueuesTotalAvailable + pendingTotal s.links =
      linkQueueCapacity * s.links.length := hinv
  refine ⟨?_, ?_, ?_, ?_, ?_⟩
  · simp [deviceStopDma, hdrain, List.all_eq_true]
  · simp [deviceStopDma, hdrain]
    omega
  · simp [stopDrainAssertsHold, deviceStopDma, hdrain, List.all_eq_true]
    omega
  · simp [deviceStopDma, hdrain]
  · intro readyCap link ready avail h0
    exact stopDrainLink_bound_wraps readyCap link ready avail h0

/-- Witness for C6 (amended): the spec's own stop scenario — one link with
two pending superpages, hardware reporting both arrived — drains both to
the ready queue, leaves the pending queue empty and restores full
capacity. -/
theorem c6_stop_drain_amended_witness :
    (deviceStopDma 8 (fun _ => 2)
        { links := [{ id := 0,
                      queue := [{ offset := 0, size := 8192 },
                                { offset := 8192, size := 8192 }],
                      superpageCounter := 0 },
                    { id := 3, queue := [], superpageCounter := 0 }],
          readyQueue := [], linkQueuesTotalAvailable := 6 }).links.all
        (fun l => l.queue.isEmpty) = true ∧
    (deviceStopDma 8 (fun _ => 2)
        { links := [{ id := 0,
                      queue := [{ offset := 0, size := 8192 },
                                { offset := 8192, size := 8192 }],
                      superpageCounter := 0 },
                    { id := 3, queue := [], superpageCounter := 0 }],
          readyQueue := [], linkQueuesTotalAvailable := 6 }).linkQueuesTotalAvailable =
      4 * (deviceStopDma 8 (fun _ => 2)
        { links := [{ id := 0,
                      queue := [{ offset := 0, size := 8192 },
                                { offset := 8192, size := 8192 }],
                      superpageCounter := 0 },
                    { id := 3, queue := [], superpageCounter := 0 }],
          readyQueue := [], linkQueuesTotalAvailable := 6 }).links.length ∧
    stopDrainAssertsHold 4
      (deviceStopDma 8 (fun _ => 2)
        { links := [{ id := 0,
                      queue := [{ offset := 0, size := 8192 },
                                { offset := 8192, size := 8192 }],
                      superpageCounter := 0 },
                    { id := 3, queue := [], superpageCounter := 0 }],
          readyQueue := [], linkQueuesTotalAvailable := 6 }) = true ∧
    (deviceStopDma 8 (fun _ => 2)
        { links := [{ id := 0,
                      queue := [{ offset := 0, size := 8192 },
                                { offset := 8192, size := 8192 }],
                      superpageCounter := 0 },
                    { id := 3, queue := [], superpageCounter := 0 }],
          readyQueue := [], linkQueuesTotalAvailable := 6 }).readyQueue =
      [] ++ (([{ id := 0,
                 queue := [{ offset := 0, size := 8192 },
                           { offset := 8192, size := 8192 }],
                 superpageCounter := 0 },
               { id := 3, queue := [], superpageCounter := 0 }] : List Link).map
          (fun l => l.queue.map markFilled)).flatten := by
  have h := c6_stop_drain_amended 4 8 (fun _ => 2)
    { links := [{ id := 0,
                  queue := [{ offset := 0, size := 8192 },
                            { offset := 8192, size := 8192 }],
                  superpageCounter := 0 },
                { id := 3, queue := [], superpageCounter := 0 }],
      readyQueue := [], linkQueuesTotalAvailable := 6 }
    (by decide) (by decide) (by decide)
  exact ⟨h.1, h.2.1, h.2.2.1, h.2.2.2.1⟩

/-- On a single-link channel, a successful push appends the superpage at
the back of the (only) pending queue: the delivery order gains exactly that
superpage at the end. -/
theorem push_orderTrace_single (linkQueueCapacity dmaPageSize : Nat)
    (busAddressOf : Nat → Nat) (s : ChannelState) (l : Link) (sp : Superpage)
    (hsingle : s.links = [l]) (s' : ChannelState) (cmds : List PushCommand)
    (h : pushSuperpage linkQueueCapacity dmaPageSize busAddressOf s sp = .ok (s', cmds)) :
    s'.links = [{ l with queue := l.queue ++ [sp] }] ∧
    orderTrace s' = orderTrace s ++ [markFilled sp] := by
  obtain ⟨-, link, hidx, -, hs', -⟩ :=
    pushSuperpage_eq_ok linkQueueCapacity dmaPageSize busAddressOf s sp s' cmds h
  have hlt : getNextLinkIndex s.links < s.links.length := by
    by_contra hge
    rw [List.getElem?_eq_none (Nat.le_of_not_lt hge)] at hidx
    exact Option.noConfusion hidx
  have hidx0 : getNextLinkIndex [l] = 0 := by
    rw [hsingle] at hlt
    simp only [List.length_cons, List.length_nil] at hlt
    omega
  subst hs'
  constructor
  · simp [pushSuperpageToLink, hsingle, hidx0, List.modify_zero_cons]
  · simp [orderTrace, pushSuperpageToLink, hsingle, hidx0, List.modify_zero_cons]

/-- On a single-link channel, a fill pass never changes the delivery order:
it only moves superpages from the front of the pending queue to the back of
the ready queue (or throws before touching anything). -/
theorem fill_orderTrace_single (readyQueueCapacity : Nat) (hw : Nat → Nat)
    (s : ChannelState) (l : Link) (hsingle : s.links = [l]) :
    ∃ l', (fillSuperpages readyQueueCapacity hw s).1.links = [l'] ∧
      orderTrace (fillSuperpages readyQueueCapacity hw s).1 = orderTrace s := by
  cases hfl : fillLink readyQueueCapacity (hw l.id) l s.readyQueue
      s.linkQueuesTotalAvailable with
  | error e =>
    exact ⟨l, by simp [fillSuperpages, hsingle, fillSuperpagesAux, hfl],
      by simp [fillSuperpages, hsingle, fillSuperpagesAux, hfl, orderTrace]⟩
  | ok t =>
    rcases t with ⟨l', r', a'⟩
    have htr := (fillLink_ok_inv readyQueueCapacity (hw l.id) l l' s.readyQueue r'
      s.linkQueuesTotalAvailable a' hfl).2
    refine ⟨l', by simp [fillSuperpages, hsingle, fillSuperpagesAux, hfl], ?_⟩
    simp only [fillSuperpages, hsingle, fillSuperpagesAux, hfl, orderTrace]
    simpa using htr

/-- C9: single-link FIFO law.  Over any run of pushes and fill polls with no
interleaved pops on a single-link channel, the delivery order (ready queue
followed by the pending queue) is the starting order followed by the
accepted pushes in push order: pushes append at the back of the pending
queue and each drain moves the front of the pending queue to the back of the
ready queue, so superpages reach the ready queue in exactly the order they
were pushed. -/
theorem c9_fifo_order (linkQueueCapacity dmaPageSize readyQueueCapacity : Nat)
    (busAddressOf : Nat → Nat) :
    ∀ (ops : List Op) (s : ChannelState) (l : Link), s.links = [l] →
    orderTrace (runOps linkQueueCapacity dmaPageSize readyQueueCapacity
        busAddressOf s ops).1 =
      orderTrace s ++
        ((runOps linkQueueCapacity dmaPageSize readyQueueCapacity
            busAddressOf s ops).2).map markFilled
  | [], s, l, hsingle => by simp [runOps]
  | .push sp :: ops, s, l, hsingle => by
    cases hpush : pushSuperpage linkQueueCapacity dmaPageSize busAddressOf s sp with
    | error e =>
      have ih := c9_fifo_order linkQueueCapacity dmaPageSize readyQueueCapacity
        busAddressOf ops s l hsingle
      rcases hrun : runOps linkQueueCapacity dmaPageSize readyQueueCapacity
        busAddressOf s ops with ⟨s'', accs⟩
      rw [hrun] at ih
      simp only at ih
      simp [runOps, applyOp, hpush, hrun, ih]
    | ok t =>
      rcases t with ⟨s', cmds⟩
      obtain ⟨hlinks, htrace⟩ := push_orderTrace_single linkQueueCapacity dmaPageSize
        busAddressOf s l sp hsingle s' cmds hpush
      have ih := c9_fifo_order linkQueueCapacity dmaPageSize readyQueueCapacity
        busAddressOf ops s' _ hlinks
      rcases hrun : runOps linkQueueCapacity dmaPageSize readyQueueCapacity
        busAddressOf s' ops with ⟨s'', accs⟩
      rw [hrun] at ih
      simp only at ih
      simp [runOps, applyOp, hpush, hrun, ih, htrace]
  | .fill hw :: ops, s, l, hsingle => by
    obtain ⟨l', hlinks, htrace⟩ := fill_orderTrace_single readyQueueCapacity hw s l hsingle
    have ih := c9_fifo_order linkQueueCapacity dmaPageSize readyQueueCapacity
      busAddressOf ops ((fillSuperpages readyQueueCapacity hw s).1) l' hlinks
    rcases hrun : runOps linkQueueCapacity dmaPageSize readyQueueCapacity
      busAddressOf ((fillSuperpages readyQueueCapacity hw s).1) ops with ⟨s'', accs⟩
    rw [hrun] at ih
    simp only at ih
    simp [runOps, applyOp, hrun, ih, htrace]

/-- Witness for C9: a concrete single-link run — two pushes, a fill
delivering one arrival, a third push — keeps the delivery order equal to
the push order. -/
theorem c9_fifo_order_witness :
    orderTrace (runOps 4 8192 4 (fun o => o)
        { links := [{ id := 2 }], readyQueue := [], linkQueuesTotalAvailable := 4 }
        [Op.push { offset := 0, size := 8192 }, Op.push { offset := 8192, size := 8192 },
         Op.fill (fun _ => 1), Op.push { offset := 16384, size := 8192 }]).1 =
      orderTrace { links := [{ id := 2 }], readyQueue := [], linkQueuesTotalAvailable := 4 } ++
        ((runOps 4 8192 4 (fun o => o)
            { links := [{ id := 2 }], readyQueue := [], linkQueuesTotalAvailable := 4 }
            [Op.push { offset := 0, size := 8192 }, Op.push { offset := 8192, size := 8192 },
             Op.fill (fun _ => 1), Op.push { offset := 16384, size := 8192 }]).2).map
          markFilled :=
  c9_fifo_order 4 8192 4 (fun o => o)
    [Op.push { offset := 0, size := 8192 }, Op.push { offset := 8192, size := 8192 },
     Op.fill (fun _ => 1), Op.push { offset := 16384, size := 8192 }]
    { links := [{ id := 2 }], readyQueue := [], linkQueuesTotalAvailable := 4 }
    { id := 2 } rfl

end CruDma
